import Mathlib

/-!
# Alien wave client: the streaming anomaly detector

A shallow embedding of `client/internal/domain/models.go`,
`client/internal/application/detector.go` and the ingestion loop of
`client/cmd/client/main.go`.

Conventions of the embedding.

* `float64` is read exactly: the scalar type is any linearly ordered field `F`
  (the rationals, the reals). `math.Sqrt` is a library function outside the
  repository and is taken as a parameter `sqrt : F → F`; `math.Abs` is `|·|`.
* Go `uint` counters (`count`, `trainSize`, `logInterval`) are natural numbers:
  `count` grows by one per sample, and `Process` stops updating the estimator
  once `count` reaches `trainSize`, so no run reaches the wrap-around of the
  machine word.
* Pointers to mutable structs become explicit state passing: a method that
  mutates its receiver returns the new receiver.
* `log.Printf` calls and `repo.Save` calls are recorded, in program order, in a
  trace of `Event`s returned next to the new state.
-/

namespace AlienWave

/-! ## `domain/models.go` -/

/-- The struct `RunningStats`: number of samples, running mean, and the running
sum of squared deviations `m2`. -/
structure RunningStats (F : Type) where
  count : Nat
  mean : F
  m2 : F

/-- The struct `AnomalyChecker` with its multiplier `K`. -/
structure AnomalyChecker (F : Type) where
  K : F

/-- The struct `Anomaly`. `Timestamp` is `time.Unix(sec, 0)`, kept as its number
of seconds. -/
structure Anomaly (F : Type) where
  SessionID : String
  Frequency : F
  Timestamp : Int
  ExpectedMean : F
  ExpectedSTD : F
  K : F

section Domain

variable {F : Type} [LinearOrderedField F]

/-- `NewRunningStats()`: the zero value of the struct. -/
def NewRunningStats : RunningStats F :=
  { count := 0, mean := 0, m2 := 0 }

/-- `(*RunningStats).Update(x)`, statement by statement. -/
def RunningStats.Update (s : RunningStats F) (x : F) : RunningStats F :=
  let count := s.count + 1
  let delta := x - s.mean
  let mean := s.mean + delta / (count : F)
  let delta2 := x - mean
  let m2 := s.m2 + delta * delta2
  { count := count, mean := mean, m2 := m2 }

/-- `(*RunningStats).Mean()`. -/
def RunningStats.Mean (s : RunningStats F) : F := s.mean

/-- `(*RunningStats).STD()`: `0` below two samples, otherwise
`math.Sqrt(m2 / float64(count-1))`. -/
def RunningStats.STD (sqrt : F → F) (s : RunningStats F) : F :=
  if s.count < 2 then 0 else sqrt (s.m2 / ((s.count - 1 : Nat) : F))

/-- `(*RunningStats).Count()`. -/
def RunningStats.Count (s : RunningStats F) : Nat := s.count

/-- `NewAnomalyChecker(k)`. -/
def NewAnomalyChecker (k : F) : AnomalyChecker F := { K := k }

/-- `(*AnomalyChecker).IsAnomaly(value, stats)`:
`math.Abs(value-stats.Mean()) > c.K*stats.STD()`. -/
def AnomalyChecker.IsAnomaly (sqrt : F → F) (c : AnomalyChecker F) (value : F)
    (stats : RunningStats F) : Bool :=
  decide (|value - stats.Mean| > c.K * stats.STD sqrt)

/-- Replaying a list of samples: `NewRunningStats()` followed by one `Update`
per sample, in order. -/
def replay (xs : List F) : RunningStats F :=
  xs.foldl RunningStats.Update NewRunningStats

/-- Sum of squared deviations of the samples from a centre `c`. -/
def sumSqDev (c : F) (xs : List F) : F :=
  (xs.map (fun x => (x - c) ^ 2)).sum

end Domain

/-! ## `domain/repository.go`, `application/detector.go` -/

/-- The message `transmitter.Transmission` received from the stream. -/
structure Transmission (F : Type) where
  SessionId : String
  Frequency : F
  TimestampUtc : Int

/-- The interface `AnomalyRepository`: `Save(a) error`, where `none` is the
`nil` error and `some msg` a failure. -/
structure AnomalyRepository (F : Type) where
  Save : Anomaly F → Option String

/-- What `Process` and the ingestion loop do to the outside world, in program
order: the `log.Printf` lines (without their formatting) and the calls of
`repo.Save`. -/
inductive Event (F : Type) where
  | logReceived (session : String) (freq : F)
  | logTrainingCompleted (mean std : F)
  | save (a : Anomaly F)
  | logSaveFailed (err : String)
  | logProcessed (count : Nat) (mean std : F)
  | logStreamError (err : String)

/-- The struct `Detector`. `shutdownCh` carries no values, so its state is
whether it has been closed. The field `mu` is never locked in the source and is
left out. -/
structure Detector (F : Type) where
  repo : AnomalyRepository F
  stats : RunningStats F
  checker : AnomalyChecker F
  trainingMode : Bool
  trainSize : Nat
  logInterval : Nat
  currentUUID : String
  shutdownCh : Bool

/-- The two errors `ctx.Err()` can return once a context is done. -/
inductive CtxErr where
  | Canceled
  | DeadlineExceeded
  deriving DecidableEq, Repr

/-- A `context.Context` as `Shutdown` sees it: `none` while `ctx.Done()` is
still open, `some e` once it is closed, with `ctx.Err() = e`. -/
abbrev Context := Option CtxErr

/-- One result of `stream.Recv()`: a message, or an error (`io.EOF` included). -/
inductive Recv (F : Type) where
  | data (p : Transmission F)
  | error (e : String)

/-- The records handed to the sink in a trace: the arguments of the `Save`
calls, in order. -/
def savedOf {F : Type} : List (Event F) → List (Anomaly F)
  | [] => []
  | Event.save a :: t => a :: savedOf t
  | _ :: t => savedOf t

/-- Go's `close(ch)`: closing a channel that is already closed panics
(`none`); otherwise the channel becomes closed. -/
def closeChan (closed : Bool) : Option Bool :=
  if closed then none else some true

/-- `(*Detector).Shutdown(ctx)`. The result is `none` if the call panics, and
otherwise the detector together with the returned error (`none` for `nil`).
When both receive cases of the `select` are ready Go picks one of them
pseudo-randomly; `chooseCtx` is that pick (`true` takes `<-ctx.Done()`). The
`default` case runs only when neither is ready. -/
def Detector.Shutdown {F : Type} (d : Detector F) (ctx : Context) (chooseCtx : Bool) :
    Option (Detector F × Option CtxErr) :=
  match d.shutdownCh, ctx with
  | true, some e => if chooseCtx then some (d, some e) else some (d, none)
  | true, none => some (d, none)
  | false, some e => some (d, some e)
  | false, none =>
    match closeChan d.shutdownCh with
    | none => none
    | some ch => some ({ d with shutdownCh := ch }, none)

section Application

variable {F : Type} [LinearOrderedField F]

/-- `NewDetector(repo, k, trainSize, logInterval)`: the fields not listed in
the composite literal keep their zero values (`trainingMode = false`,
`currentUUID = ""`), and the channel is freshly made, hence open. -/
def NewDetector (repo : AnomalyRepository F) (k : F) (trainSize logInterval : Nat) :
    Detector F :=
  { repo := repo
    stats := NewRunningStats
    checker := NewAnomalyChecker k
    trainingMode := false
    trainSize := trainSize
    logInterval := logInterval
    currentUUID := ""
    shutdownCh := false }

/-- `(*Detector).saveAnomaly(point)`: builds the `Anomaly` from the point and
the current statistics, calls `repo.Save` once, and logs a failure. -/
def Detector.saveAnomaly (sqrt : F → F) (d : Detector F) (point : Transmission F) :
    List (Event F) :=
  let anomaly : Anomaly F :=
    { SessionID := point.SessionId
      Frequency := point.Frequency
      Timestamp := point.TimestampUtc
      ExpectedMean := d.stats.Mean
      ExpectedSTD := d.stats.STD sqrt
      K := d.checker.K }
  match d.repo.Save anomaly with
  | some err => [Event.save anomaly, Event.logSaveFailed err]
  | none => [Event.save anomaly]

/-- `(*Detector).reset()`. -/
def Detector.reset (d : Detector F) : Detector F :=
  { d with stats := NewRunningStats, trainingMode := true }

/-- `(*Detector).Process(point)`: the new detector and the trace of the call. -/
def Detector.Process (sqrt : F → F) (d : Detector F) (point : Transmission F) :
    Detector F × List (Event F) :=
  let t0 := [Event.logReceived point.SessionId point.Frequency]
  let d1 :=
    if d.currentUUID ≠ point.SessionId then
      { d.reset with currentUUID := point.SessionId }
    else d
  let r2 : Detector F × List (Event F) :=
    if d1.trainingMode then
      let d' := { d1 with stats := d1.stats.Update point.Frequency }
      if d'.stats.Count ≥ d'.trainSize then
        ({ d' with trainingMode := false },
          [Event.logTrainingCompleted d'.stats.Mean (d'.stats.STD sqrt)])
      else (d', [])
    else (d1, [])
  let d2 := r2.1
  let t3 :=
    if d2.checker.IsAnomaly sqrt point.Frequency d2.stats then d2.saveAnomaly sqrt point
    else []
  let t4 :=
    if d2.stats.Count % 10 = 0 then
      [Event.logProcessed d2.stats.Count d2.stats.Mean (d2.stats.STD sqrt)]
    else []
  (d2, t0 ++ r2.2 ++ t3 ++ t4)

/-- Feeding a list of records to `Process`, one after the other. -/
def processAll (sqrt : F → F) (d : Detector F) (ps : List (Transmission F)) : Detector F :=
  ps.foldl (fun acc p => (acc.Process sqrt p).1) d

/-- The traces of feeding a list of records to `Process`, concatenated. -/
def traceAll (sqrt : F → F) : Detector F → List (Transmission F) → List (Event F)
  | _, [] => []
  | d, p :: ps => (d.Process sqrt p).2 ++ traceAll sqrt (d.Process sqrt p).1 ps

/-! ## `cmd/client/main.go`: the goroutine of `startDataProcessing` -/

/-- The loop of the goroutine started by `startDataProcessing`. `stream` lists
the results the successive `stream.Recv()` calls return; once it is exhausted
the stream has ended and `Recv` returns `io.EOF`. `ctxDone i` tells whether
`ctx.Done()` is found closed by the `select` at the top of the iteration that
follows `i` processed records. The result is the detector when the loop
returns and the trace of the whole run. -/
def startDataProcessing (sqrt : F → F) (ctxDone : Nat → Bool) :
    Nat → Detector F → List (Recv F) → Detector F × List (Event F)
  | i, d, [] =>
    if ctxDone i then (d, []) else (d, [Event.logStreamError "EOF"])
  | i, d, Recv.error e :: _ =>
    if ctxDone i then (d, []) else (d, [Event.logStreamError e])
  | i, d, Recv.data p :: rest =>
    if ctxDone i then (d, [])
    else
      let r := d.Process sqrt p
      let r' := startDataProcessing sqrt ctxDone (i + 1) r.1 rest
      (r'.1, r.2 ++ r'.2)

end Application

/-! ## Properties of the estimator -/

section DomainLemmas

variable {F : Type} [LinearOrderedField F]

theorem replay_snoc (xs : List F) (x : F) :
    replay (xs ++ [x]) = (replay xs).Update x := by
  simp [replay, List.foldl_append]

theorem replay_count (xs : List F) : (replay xs).count = xs.length := by
  induction xs using List.reverseRecOn with
  | nil => rfl
  | append_singleton xs x ih =>
    rw [replay_snoc]
    simp [RunningStats.Update, ih]

/-- Welford's first invariant: `count * mean` is the sum of the samples. -/
theorem replay_mean_mul (xs : List F) :
    (xs.length : F) * (replay xs).mean = xs.sum := by
  induction xs using List.reverseRecOn with
  | nil => simp [replay, NewRunningStats]
  | append_singleton xs x ih =>
    rw [replay_snoc]
    have hc : (replay xs).count = xs.length := replay_count xs
    have hne : ((xs.length : F) + 1) ≠ 0 := by positivity
    simp only [RunningStats.Update, hc, List.length_append, List.length_singleton,
      List.sum_append, List.sum_singleton, Nat.cast_add, Nat.cast_one]
    rw [← ih]
    field_simp
    ring

theorem sumSqDev_expand (c : F) (xs : List F) :
    sumSqDev c xs
      = (xs.map (fun x => x ^ 2)).sum - 2 * c * xs.sum + (xs.length : F) * c ^ 2 := by
  induction xs with
  | nil => simp [sumSqDev]
  | cons x xs ih =>
    simp only [sumSqDev, List.map_cons, List.sum_cons, List.length_cons, Nat.cast_add,
      Nat.cast_one] at ih ⊢
    rw [ih]
    ring

/-- Welford's second invariant, in expanded form. -/
theorem replay_m2_expand (xs : List F) :
    (replay xs).m2
      = (xs.map (fun x => x ^ 2)).sum - (xs.length : F) * (replay xs).mean ^ 2 := by
  induction xs using List.reverseRecOn with
  | nil => simp [replay, NewRunningStats]
  | append_singleton xs x ih =>
    have hm := replay_mean_mul (xs ++ [x])
    rw [replay_snoc] at hm ⊢
    have hm0 := replay_mean_mul xs
    have hc : (replay xs).count = xs.length := replay_count xs
    have hne : ((xs.length : F) + 1) ≠ 0 := by positivity
    simp only [RunningStats.Update, hc, List.length_append, List.length_singleton,
      List.sum_append, List.sum_singleton, List.map_append, List.map_cons, List.map_nil,
      Nat.cast_add, Nat.cast_one] at hm ⊢
    rw [ih]
    field_simp
    ring

/-- The accumulated `m2` is the sum of squared deviations from the final mean. -/
theorem replay_m2 (xs : List F) :
    (replay xs).m2 = sumSqDev (replay xs).mean xs := by
  rw [replay_m2_expand, sumSqDev_expand, ← replay_mean_mul xs]
  ring

theorem replay_mean (xs : List F) (h : xs ≠ []) :
    (replay xs).mean = xs.sum / (xs.length : F) := by
  have hlen : (xs.length : F) ≠ 0 := by
    have : xs.length ≠ 0 := by simpa [List.length_eq_zero] using h
    exact_mod_cast this
  rw [← replay_mean_mul xs]
  field_simp


/-- C1. Replaying any list of samples through `Update` from `NewRunningStats()`
leaves `Count()` equal to the length of the list; when the list is non-empty
`Mean()` is the arithmetic mean, the sum divided by the length; and for the
empty list `Mean()` is `0`. -/
theorem replay_mean_count (xs : List F) :
    (replay xs).Count = xs.length
      ∧ (xs ≠ [] → (replay xs).Mean = xs.sum / (xs.length : F))
      ∧ (replay ([] : List F)).Mean = 0 :=
  ⟨replay_count xs, replay_mean xs, rfl⟩

/-- C2. After replaying a list with at least two samples, `m2` is the sum of
squared deviations from the arithmetic mean and `STD()` is the square root of
that sum divided by `n - 1`; after replaying fewer than two samples `STD()` is
exactly `0`. -/
theorem replay_std (sqrt : F → F) (xs : List F) :
    (2 ≤ xs.length →
        (replay xs).m2 = sumSqDev (xs.sum / (xs.length : F)) xs
          ∧ (replay xs).STD sqrt
              = sqrt (sumSqDev (xs.sum / (xs.length : F)) xs / ((xs.length : F) - 1)))
      ∧ (xs.length < 2 → (replay xs).STD sqrt = 0) := by
  constructor
  · intro h
    have hne : xs ≠ [] := by
      intro h0
      simp [h0] at h
    have hm2 : (replay xs).m2 = sumSqDev (xs.sum / (xs.length : F)) xs := by
      rw [replay_m2, replay_mean xs hne]
    refine ⟨hm2, ?_⟩
    have hcast : (((xs.length - 1 : Nat)) : F) = (xs.length : F) - 1 := by
      rw [Nat.cast_sub (by omega)]
      simp
    simp only [RunningStats.STD, replay_count]
    rw [if_neg (by omega), hm2, hcast]
  · intro h
    simp only [RunningStats.STD, replay_count]
    rw [if_pos h]

/-- C3. `IsAnomaly(value, stats)` is true exactly when
`|value - stats.Mean()| > K * stats.STD()`, strictly. With `K = 1.5`, any
statistics whose mean is `0` and whose standard deviation is `2` flag `5` and
do not flag `2`; the samples `-2, 0, 2` give such statistics as soon as
`sqrt 4 = 2`. -/
theorem isAnomaly_iff (sqrt : F → F) (hsqrt : sqrt 4 = 2) :
    (∀ (c : AnomalyChecker F) (value : F) (stats : RunningStats F),
        c.IsAnomaly sqrt value stats = true
          ↔ |value - stats.Mean| > c.K * stats.STD sqrt)
      ∧ (∀ stats : RunningStats F, stats.Mean = 0 → stats.STD sqrt = 2 →
          (NewAnomalyChecker (1.5 : F)).IsAnomaly sqrt 5 stats = true
            ∧ (NewAnomalyChecker (1.5 : F)).IsAnomaly sqrt 2 stats = false)
      ∧ (replay [(-2 : F), 0, 2]).Mean = 0
      ∧ (replay [(-2 : F), 0, 2]).STD sqrt = 2 := by
  refine ⟨?_, ?_, ?_, ?_⟩
  · intro c value stats
    simp [AnomalyChecker.IsAnomaly]
  · intro stats hm hs
    simp only [AnomalyChecker.IsAnomaly, NewAnomalyChecker, hm, hs, sub_zero]
    constructor
    · rw [decide_eq_true_iff, abs_of_nonneg (by norm_num)]
      norm_num
    · rw [decide_eq_false_iff_not, abs_of_nonneg (by norm_num)]
      norm_num
  · norm_num [replay, RunningStats.Update, NewRunningStats, RunningStats.Mean]
  · have hr : replay [(-2 : F), 0, 2] = { count := 3, mean := 0, m2 := 8 } := by
      simp only [replay, List.foldl, RunningStats.Update, NewRunningStats]
      norm_num
    have h84 : (8 : F) / 2 = 4 := by norm_num
    simp [hr, RunningStats.STD, h84, hsqrt]

/-- Witness of C1 on the samples `1, 2, 6`. -/
theorem replay_mean_count_witness :
    ([1, 2, 6] : List ℚ) ≠ [] ∧ (replay ([1, 2, 6] : List ℚ)).Mean = 3 := by
  refine ⟨by simp, ?_⟩
  have h := (replay_mean_count ([1, 2, 6] : List ℚ)).2.1 (by simp)
  rw [h]
  norm_num

/-- Witness of C2 over the reals, on the samples `-2, 0, 2` and on the single
sample `7`. -/
theorem replay_std_witness :
    (2 ≤ ([-2, 0, 2] : List ℝ).length
        ∧ (replay ([-2, 0, 2] : List ℝ)).STD Real.sqrt
            = Real.sqrt (sumSqDev (([-2, 0, 2] : List ℝ).sum
                / (([-2, 0, 2] : List ℝ).length : ℝ)) [-2, 0, 2]
                / ((([-2, 0, 2] : List ℝ).length : ℝ) - 1)))
      ∧ (([7] : List ℝ).length < 2 ∧ (replay ([7] : List ℝ)).STD Real.sqrt = 0) :=
  ⟨⟨by simp, ((replay_std Real.sqrt ([-2, 0, 2] : List ℝ)).1 (by simp)).2⟩,
    ⟨by simp, (replay_std Real.sqrt ([7] : List ℝ)).2 (by simp)⟩⟩

/-- Witness of C3 over the reals with the real square root. -/
theorem isAnomaly_iff_witness :
    Real.sqrt 4 = 2
      ∧ (NewAnomalyChecker (1.5 : ℝ)).IsAnomaly Real.sqrt 5 (replay [(-2 : ℝ), 0, 2]) = true
      ∧ (NewAnomalyChecker (1.5 : ℝ)).IsAnomaly Real.sqrt 2 (replay [(-2 : ℝ), 0, 2])
          = false := by
  have h4 : Real.sqrt 4 = 2 := by
    rw [show (4 : ℝ) = 2 ^ 2 by norm_num]
    exact Real.sqrt_sq (by norm_num)
  have h := isAnomaly_iff Real.sqrt h4
  exact ⟨h4, h.2.1 _ h.2.2.1 h.2.2.2⟩

end DomainLemmas

/-! ## Properties of the detector -/

theorem savedOf_append {F : Type} (a b : List (Event F)) :
    savedOf (a ++ b) = savedOf a ++ savedOf b := by
  induction a with
  | nil => rfl
  | cons e a ih => cases e <;> simp [savedOf, ih]

section DetectorLemmas

variable {F : Type} [LinearOrderedField F]

theorem processAll_snoc (sqrt : F → F) (d : Detector F) (ps : List (Transmission F))
    (p : Transmission F) :
    processAll sqrt d (ps ++ [p]) = ((processAll sqrt d ps).Process sqrt p).1 := by
  simp [processAll, List.foldl_append]

/-- State after a record that opens a new session. -/
theorem Process_switch (sqrt : F → F) (d : Detector F) (p : Transmission F)
    (h : d.currentUUID ≠ p.SessionId) :
    (d.Process sqrt p).1
      = { d with
          stats := NewRunningStats.Update p.Frequency
          trainingMode := decide (2 ≤ d.trainSize)
          currentUUID := p.SessionId } := by
  by_cases hn : 2 ≤ d.trainSize
  · have h1 : ¬ (1 ≥ d.trainSize) := by omega
    simp [Detector.Process, Detector.reset, h, RunningStats.Count, RunningStats.Update,
      NewRunningStats, hn, h1]
  · have h1 : 1 ≥ d.trainSize := by omega
    simp [Detector.Process, Detector.reset, h, RunningStats.Count, RunningStats.Update,
      NewRunningStats, hn, h1]

/-- State after a record of the current session while training. -/
theorem Process_training (sqrt : F → F) (d : Detector F) (p : Transmission F)
    (h : d.currentUUID = p.SessionId) (ht : d.trainingMode = true) :
    (d.Process sqrt p).1
      = { d with
          stats := d.stats.Update p.Frequency
          trainingMode := decide (d.stats.count + 1 < d.trainSize) } := by
  by_cases hn : d.stats.count + 1 < d.trainSize
  · have h1 : ¬ (d.stats.count + 1 ≥ d.trainSize) := by omega
    simp [Detector.Process, h, ht, RunningStats.Count, RunningStats.Update, hn, h1]
  · have h1 : d.stats.count + 1 ≥ d.trainSize := by omega
    simp [Detector.Process, h, ht, RunningStats.Count, RunningStats.Update, hn, h1]

/-- State after a record of the current session while monitoring: unchanged. -/
theorem Process_monitoring (sqrt : F → F) (d : Detector F) (p : Transmission F)
    (h : d.currentUUID = p.SessionId) (ht : d.trainingMode = false) :
    (d.Process sqrt p).1 = d := by
  simp [Detector.Process, h, ht]

theorem Process_currentUUID (sqrt : F → F) (d : Detector F) (p : Transmission F) :
    (d.Process sqrt p).1.currentUUID = p.SessionId := by
  by_cases h : d.currentUUID = p.SessionId
  · cases ht : d.trainingMode
    · rw [Process_monitoring sqrt d p h ht, h]
    · rw [Process_training sqrt d p h ht]
      exact h
  · rw [Process_switch sqrt d p h]

theorem Process_trainSize (sqrt : F → F) (d : Detector F) (p : Transmission F) :
    (d.Process sqrt p).1.trainSize = d.trainSize := by
  by_cases h : d.currentUUID = p.SessionId
  · cases ht : d.trainingMode
    · rw [Process_monitoring sqrt d p h ht]
    · rw [Process_training sqrt d p h ht]
  · rw [Process_switch sqrt d p h]

/-- A run of records of one session that opens a new session: the estimator
holds the first `trainSize` samples of the run, and training lasts as long as
the run is shorter than `trainSize`. -/
theorem session_run (sqrt : F → F) (d : Detector F) (sid : String)
    (hnew : d.currentUUID ≠ sid) (hn : 1 ≤ d.trainSize) (qs : List (Transmission F)) :
    qs ≠ [] → (∀ p ∈ qs, p.SessionId = sid) →
      processAll sqrt d qs
        = { d with
            stats := replay ((qs.take d.trainSize).map (fun p => p.Frequency))
            trainingMode := decide (qs.length < d.trainSize)
            currentUUID := sid } := by
  induction qs using List.reverseRecOn with
  | nil => intro h; exact absurd rfl h
  | append_singleton qs q ih =>
    intro _ hall
    have hq : q.SessionId = sid := hall q (by simp)
    rw [processAll_snoc]
    by_cases hqs : qs = []
    · subst hqs
      have hd : processAll sqrt d [] = d := rfl
      rw [hd, Process_switch sqrt d q (by rw [hq]; exact hnew)]
      have ht : List.take d.trainSize [q] = [q] :=
        List.take_of_length_le (by simpa using hn)
      have hb : decide (2 ≤ d.trainSize) = decide (([] ++ [q]).length < d.trainSize) := by
        apply decide_eq_decide.mpr
        simp
        omega
      simp only [List.nil_append, ht, hq, hb, List.map_cons, List.map_nil]
      rfl
    · have ih1 := ih hqs (fun p hp => hall p (by simp [hp]))
      by_cases hlt : qs.length < d.trainSize
      · have htr : (processAll sqrt d qs).trainingMode = true := by
          rw [ih1]
          simpa using hlt
        have hid : (processAll sqrt d qs).currentUUID = q.SessionId := by
          rw [ih1, hq]
        rw [Process_training sqrt _ q hid htr, ih1]
        have ht1 : List.take d.trainSize qs = qs := List.take_of_length_le (by omega)
        have ht2 : List.take d.trainSize (qs ++ [q]) = qs ++ [q] :=
          List.take_of_length_le (by simp; omega)
        have hb : decide ((replay (List.map (fun p => p.Frequency) qs)).count + 1
              < d.trainSize) = decide ((qs ++ [q]).length < d.trainSize) := by
          apply decide_eq_decide.mpr
          simp [replay_count]
        simp only [ht1, ht2, List.map_append, List.map_cons, List.map_nil, replay_snoc, hb]
      · have htr : (processAll sqrt d qs).trainingMode = false := by
          rw [ih1]
          simpa using hlt
        have hid : (processAll sqrt d qs).currentUUID = q.SessionId := by
          rw [ih1, hq]
        rw [Process_monitoring sqrt _ q hid htr, ih1]
        have ht2 : List.take d.trainSize (qs ++ [q]) = List.take d.trainSize qs :=
          List.take_append_of_le_length (by omega)
        have hb : decide (qs.length < d.trainSize)
            = decide ((qs ++ [q]).length < d.trainSize) := by
          apply decide_eq_decide.mpr
          simp
          omega
        simp only [ht2, hb]

/-- C4, as amended. After `Process` handles a record whose session id differs
from the stored one, the estimator holds only that record's sample
(`Count() = 1`, mean equal to its frequency), the stored session id is the
record's, and `trainingMode` is true exactly when `trainSize` is at least `2`.
In particular, with `trainSize ≥ 2`, feeding `(S1,10), (S1,10), (S2,10)` with
`S1 ≠ S2` to a new detector leaves `Count() = 1` and `trainingMode = true`. -/
theorem session_switch_resets (sqrt : F → F) (d : Detector F) (p : Transmission F) :
    (d.currentUUID ≠ p.SessionId →
        (d.Process sqrt p).1.stats.Count = 1
          ∧ (d.Process sqrt p).1.stats.Mean = p.Frequency
          ∧ (d.Process sqrt p).1.currentUUID = p.SessionId
          ∧ ((d.Process sqrt p).1.trainingMode = true ↔ 2 ≤ d.trainSize))
      ∧ (∀ (repo : AnomalyRepository F) (k : F) (trainSize logInterval : Nat)
          (s1 s2 : String) (t1 t2 t3 : Int), s1 ≠ s2 → 2 ≤ trainSize →
          (processAll sqrt (NewDetector repo k trainSize logInterval)
              [⟨s1, 10, t1⟩, ⟨s1, 10, t2⟩, ⟨s2, 10, t3⟩]).stats.Count = 1
            ∧ (processAll sqrt (NewDetector repo k trainSize logInterval)
              [⟨s1, 10, t1⟩, ⟨s1, 10, t2⟩, ⟨s2, 10, t3⟩]).trainingMode = true) := by
  constructor
  · intro h
    rw [Process_switch sqrt d p h]
    refine ⟨rfl, ?_, rfl, ?_⟩
    · simp [RunningStats.Mean, RunningStats.Update, NewRunningStats]
    · simp
  · intro repo k trainSize logInterval s1 s2 t1 t2 t3 hne hts
    have hsplit : ([⟨s1, 10, t1⟩, ⟨s1, 10, t2⟩, ⟨s2, 10, t3⟩] : List (Transmission F))
        = [⟨s1, 10, t1⟩, ⟨s1, 10, t2⟩] ++ [⟨s2, 10, t3⟩] := rfl
    rw [hsplit, processAll_snoc]
    have hid : (processAll sqrt (NewDetector repo k trainSize logInterval)
        [⟨s1, 10, t1⟩, ⟨s1, 10, t2⟩]).currentUUID = s1 := by
      have h2 : ([⟨s1, 10, t1⟩, ⟨s1, 10, t2⟩] : List (Transmission F))
          = [⟨s1, 10, t1⟩] ++ [⟨s1, 10, t2⟩] := rfl
      rw [h2, processAll_snoc, Process_currentUUID]
    have hsz : (processAll sqrt (NewDetector repo k trainSize logInterval)
        [⟨s1, 10, t1⟩, ⟨s1, 10, t2⟩]).trainSize = trainSize := by
      have h2 : ([⟨s1, 10, t1⟩, ⟨s1, 10, t2⟩] : List (Transmission F))
          = [⟨s1, 10, t1⟩] ++ [⟨s1, 10, t2⟩] := rfl
      have h1 : ([⟨s1, 10, t1⟩] : List (Transmission F)) = [] ++ [⟨s1, 10, t1⟩] := rfl
      rw [h2, processAll_snoc, Process_trainSize, h1, processAll_snoc, Process_trainSize]
      rfl
    rw [Process_switch sqrt _ _ (by rw [hid]; exact hne)]
    refine ⟨rfl, ?_⟩
    simp [hsz, hts]

/-- Witness of C4 on a new detector with `trainSize = 3`. -/
theorem session_switch_resets_witness :
    (NewDetector ⟨fun _ => none⟩ (1.5 : ℝ) 3 10).currentUUID ≠ "S1"
      ∧ ((NewDetector ⟨fun _ => none⟩ (1.5 : ℝ) 3 10).Process Real.sqrt
          ⟨"S1", 10, 0⟩).1.stats.Count = 1
      ∧ ("S1" : String) ≠ "S2" ∧ 2 ≤ 3
      ∧ (processAll Real.sqrt (NewDetector ⟨fun _ => none⟩ (1.5 : ℝ) 3 10)
          [⟨"S1", 10, 0⟩, ⟨"S1", 10, 1⟩, ⟨"S2", 10, 2⟩]).trainingMode = true := by
  have hne : (NewDetector ⟨fun _ => none⟩ (1.5 : ℝ) 3 10).currentUUID ≠ "S1" := by
    simp [NewDetector]
  have h := session_switch_resets Real.sqrt (NewDetector ⟨fun _ => none⟩ (1.5 : ℝ) 3 10)
    ⟨"S1", 10, 0⟩
  have h12 : ("S1" : String) ≠ "S2" := by decide
  exact ⟨hne, (h.1 hne).1, h12, by decide,
    (h.2 ⟨fun _ => none⟩ 1.5 3 10 "S1" "S2" 0 1 2 h12 (by decide)).2⟩

/-- C4 fails as stated: with `trainSize = 1` the record that switches the
session completes training at once, so `trainingMode` is false after it. -/
theorem session_switch_counterexample :
    (processAll Real.sqrt (NewDetector ⟨fun _ => none⟩ (1.5 : ℝ) 1 10)
        [⟨"S1", 10, 0⟩, ⟨"S1", 10, 1⟩]).currentUUID ≠ "S2"
      ∧ (processAll Real.sqrt (NewDetector ⟨fun _ => none⟩ (1.5 : ℝ) 1 10)
        [⟨"S1", 10, 0⟩, ⟨"S1", 10, 1⟩, ⟨"S2", 10, 2⟩]).trainingMode = false := by
  have hrun := session_run Real.sqrt (NewDetector ⟨fun _ => none⟩ (1.5 : ℝ) 1 10) "S1"
    (by simp [NewDetector]) (by simp [NewDetector])
    [⟨"S1", 10, 0⟩, ⟨"S1", 10, 1⟩] (by simp) (by simp)
  have hid : (processAll Real.sqrt (NewDetector ⟨fun _ => none⟩ (1.5 : ℝ) 1 10)
      [⟨"S1", 10, 0⟩, ⟨"S1", 10, 1⟩]).currentUUID ≠ "S2" := by
    rw [hrun]
    decide
  refine ⟨hid, ?_⟩
  have hsplit : ([⟨"S1", 10, 0⟩, ⟨"S1", 10, 1⟩, ⟨"S2", 10, 2⟩] : List (Transmission ℝ))
      = [⟨"S1", 10, 0⟩, ⟨"S1", 10, 1⟩] ++ [⟨"S2", 10, 2⟩] := rfl
  rw [hsplit, processAll_snoc, Process_switch Real.sqrt _ _ hid, hrun]
  simp [NewDetector]

/-- On a detector freshly built by `NewDetector`, a first record whose session
id is not the empty string goes through the reset: afterwards the estimator is
a fresh one updated with the record's frequency (`Count() = 1`), the record's
session id is stored, and `trainingMode` is true exactly when `trainSize` is at
least `2`. -/
theorem first_record_resets (sqrt : F → F) (repo : AnomalyRepository F) (k : F)
    (trainSize logInterval : Nat) (p : Transmission F) (h : p.SessionId ≠ "") :
    ((NewDetector repo k trainSize logInterval).Process sqrt p).1.stats
        = NewRunningStats.Update p.Frequency
      ∧ ((NewDetector repo k trainSize logInterval).Process sqrt p).1.stats.Count = 1
      ∧ ((NewDetector repo k trainSize logInterval).Process sqrt p).1.currentUUID
          = p.SessionId
      ∧ (((NewDetector repo k trainSize logInterval).Process sqrt p).1.trainingMode = true
          ↔ 2 ≤ trainSize) := by
  have hne : (NewDetector repo k trainSize logInterval).currentUUID ≠ p.SessionId := by
    intro h0
    exact h h0.symm
  rw [Process_switch sqrt _ p hne]
  refine ⟨rfl, rfl, rfl, ?_⟩
  simp [NewDetector]

/-- The first record `("A", 7)` on a new detector is incorporated. -/
theorem first_record_resets_witness :
    ("A" : String) ≠ ""
      ∧ ((NewDetector ⟨fun _ => none⟩ (1.5 : ℝ) 100 10).Process Real.sqrt
          ⟨"A", 7, 0⟩).1.stats.Count = 1 :=
  ⟨by decide,
    (first_record_resets Real.sqrt ⟨fun _ => none⟩ (1.5 : ℝ) 100 10 ⟨"A", 7, 0⟩
      (by decide)).2.1⟩

/-- State after the first `j ≥ 1` records of a run of one session that opens a
new session. -/
theorem session_run_take (sqrt : F → F) (d : Detector F) (sid : String)
    (hnew : d.currentUUID ≠ sid) (hn : 1 ≤ d.trainSize) (ps : List (Transmission F))
    (hall : ∀ p ∈ ps, p.SessionId = sid) (j : Nat) (hj : 1 ≤ j) (hjl : j ≤ ps.length) :
    processAll sqrt d (ps.take j)
      = { d with
          stats := replay ((ps.take (min d.trainSize j)).map (fun p => p.Frequency))
          trainingMode := decide (j < d.trainSize)
          currentUUID := sid } := by
  have hne : ps.take j ≠ [] := by
    intro h0
    have hl : (ps.take j).length = 0 := by rw [h0]; rfl
    rw [List.length_take] at hl
    omega
  have hmem : ∀ p ∈ ps.take j, p.SessionId = sid :=
    fun p hp => hall p (List.mem_of_mem_take hp)
  rw [session_run sqrt d sid hnew hn (ps.take j) hne hmem, List.take_take,
    List.length_take, Nat.min_eq_left hjl]

/-- C5. Take a run of records with one session id that opens a new session,
with `trainSize = n ≥ 1`. After `j` records of the run, `1 ≤ j < n`,
`trainingMode` is true; after exactly `n` records it is false and
`Count() = n`; and each further record of the run leaves the estimator
(`count`, `mean`, `m2`) as it was and `trainingMode` false. -/
theorem training_completion (sqrt : F → F) (d : Detector F) (sid : String)
    (hnew : d.currentUUID ≠ sid) (hn : 1 ≤ d.trainSize) (ps : List (Transmission F))
    (hall : ∀ p ∈ ps, p.SessionId = sid) :
    (∀ j, 1 ≤ j → j < d.trainSize → j ≤ ps.length →
        (processAll sqrt d (ps.take j)).trainingMode = true)
      ∧ (d.trainSize ≤ ps.length →
          (processAll sqrt d (ps.take d.trainSize)).trainingMode = false
            ∧ (processAll sqrt d (ps.take d.trainSize)).stats.Count = d.trainSize)
      ∧ (∀ j, d.trainSize ≤ j → j < ps.length →
          (processAll sqrt d (ps.take (j + 1))).stats
              = (processAll sqrt d (ps.take j)).stats
            ∧ (processAll sqrt d (ps.take (j + 1))).trainingMode = false) := by
  refine ⟨?_, ?_, ?_⟩
  · intro j hj hlt hjl
    rw [session_run_take sqrt d sid hnew hn ps hall j hj hjl]
    simpa using hlt
  · intro hle
    rw [session_run_take sqrt d sid hnew hn ps hall d.trainSize hn hle]
    refine ⟨by simp, ?_⟩
    simp only [RunningStats.Count, replay_count, List.length_map, List.length_take]
    omega
  · intro j hnj hjl
    rw [session_run_take sqrt d sid hnew hn ps hall j (by omega) (by omega),
      session_run_take sqrt d sid hnew hn ps hall (j + 1) (by omega) (by omega)]
    have h1 : min d.trainSize j = d.trainSize := Nat.min_eq_left hnj
    have h2 : min d.trainSize (j + 1) = d.trainSize := Nat.min_eq_left (by omega)
    refine ⟨by simp only [h1, h2], ?_⟩
    simp
    omega

/-- Witness of C5 with `trainSize = 3` and four records of session `"A"`:
training after two records, monitoring with `Count() = 3` after three, and the
fourth record does not change the estimator. -/
theorem training_completion_witness :
    (NewDetector ⟨fun _ => none⟩ (1.5 : ℝ) 3 10).currentUUID ≠ "A"
      ∧ 1 ≤ (NewDetector ⟨fun _ => none⟩ (1.5 : ℝ) 3 10).trainSize
      ∧ (processAll Real.sqrt (NewDetector ⟨fun _ => none⟩ (1.5 : ℝ) 3 10)
          [⟨"A", 1, 0⟩, ⟨"A", 2, 1⟩]).trainingMode = true
      ∧ (processAll Real.sqrt (NewDetector ⟨fun _ => none⟩ (1.5 : ℝ) 3 10)
          [⟨"A", 1, 0⟩, ⟨"A", 2, 1⟩, ⟨"A", 3, 2⟩]).trainingMode = false
      ∧ (processAll Real.sqrt (NewDetector ⟨fun _ => none⟩ (1.5 : ℝ) 3 10)
          [⟨"A", 1, 0⟩, ⟨"A", 2, 1⟩, ⟨"A", 3, 2⟩]).stats.Count = 3
      ∧ (processAll Real.sqrt (NewDetector ⟨fun _ => none⟩ (1.5 : ℝ) 3 10)
          [⟨"A", 1, 0⟩, ⟨"A", 2, 1⟩, ⟨"A", 3, 2⟩, ⟨"A", 50, 3⟩]).stats
        = (processAll Real.sqrt (NewDetector ⟨fun _ => none⟩ (1.5 : ℝ) 3 10)
          [⟨"A", 1, 0⟩, ⟨"A", 2, 1⟩, ⟨"A", 3, 2⟩]).stats := by
  have hnew : (NewDetector ⟨fun _ => none⟩ (1.5 : ℝ) 3 10).currentUUID ≠ "A" := by
    simp [NewDetector]
  have hn : 1 ≤ (NewDetector ⟨fun _ => none⟩ (1.5 : ℝ) 3 10).trainSize := by
    simp [NewDetector]
  have h := training_completion Real.sqrt (NewDetector ⟨fun _ => none⟩ (1.5 : ℝ) 3 10) "A"
    hnew hn [⟨"A", 1, 0⟩, ⟨"A", 2, 1⟩, ⟨"A", 3, 2⟩, ⟨"A", 50, 3⟩] (by simp)
  have h2 := h.1 2 (by decide) (by simp [NewDetector]) (by simp)
  have h3 := h.2.1 (by simp [NewDetector])
  have h4 := h.2.2 3 (by simp [NewDetector]) (by simp)
  exact ⟨hnew, hn, h2, h3.1, h3.2, h4.1⟩

theorem Process_checker (sqrt : F → F) (d : Detector F) (p : Transmission F) :
    (d.Process sqrt p).1.checker = d.checker := by
  by_cases h : d.currentUUID = p.SessionId
  · cases ht : d.trainingMode
    · rw [Process_monitoring sqrt d p h ht]
    · rw [Process_training sqrt d p h ht]
  · rw [Process_switch sqrt d p h]

/-- The one record `saveAnomaly` hands to the repository. -/
theorem savedOf_saveAnomaly (sqrt : F → F) (d : Detector F) (p : Transmission F) :
    savedOf (d.saveAnomaly sqrt p)
      = [{ SessionID := p.SessionId
           Frequency := p.Frequency
           Timestamp := p.TimestampUtc
           ExpectedMean := d.stats.Mean
           ExpectedSTD := d.stats.STD sqrt
           K := d.checker.K }] := by
  unfold Detector.saveAnomaly
  dsimp only
  split <;> rfl

/-- The trace of `Process`, with the resulting detector named. -/
theorem Process_trace (sqrt : F → F) (d : Detector F) (p : Transmission F) :
    ∃ tl : List (Event F), savedOf tl = [] ∧
      (d.Process sqrt p).2
        = Event.logReceived p.SessionId p.Frequency :: tl
          ++ (if (d.Process sqrt p).1.checker.IsAnomaly sqrt p.Frequency
                (d.Process sqrt p).1.stats
              then (d.Process sqrt p).1.saveAnomaly sqrt p else [])
          ++ (if (d.Process sqrt p).1.stats.Count % 10 = 0 then
                [Event.logProcessed (d.Process sqrt p).1.stats.Count
                  (d.Process sqrt p).1.stats.Mean ((d.Process sqrt p).1.stats.STD sqrt)]
              else []) := by
  by_cases h1 : (if d.currentUUID ≠ p.SessionId then
      { d.reset with currentUUID := p.SessionId } else d).trainingMode = true
  · by_cases h2 : ((if d.currentUUID ≠ p.SessionId then
        { d.reset with currentUUID := p.SessionId } else d).stats.Update p.Frequency).Count
          ≥ (if d.currentUUID ≠ p.SessionId then
              { d.reset with currentUUID := p.SessionId } else d).trainSize
    · refine ⟨[Event.logTrainingCompleted (d.Process sqrt p).1.stats.Mean
        ((d.Process sqrt p).1.stats.STD sqrt)], rfl, ?_⟩
      simp only [Detector.Process, h1, h2, if_true]
      rfl
    · refine ⟨[], rfl, ?_⟩
      simp only [Detector.Process, h1, h2, if_true, if_false]
      rfl
  · refine ⟨[], rfl, ?_⟩
    simp only [Detector.Process, h1, if_false]
    rfl

/-- What `Process` hands to the sink. -/
theorem Process_saved (sqrt : F → F) (d : Detector F) (p : Transmission F) :
    savedOf (d.Process sqrt p).2
      = if (d.Process sqrt p).1.checker.IsAnomaly sqrt p.Frequency
            (d.Process sqrt p).1.stats = true then
          [{ SessionID := p.SessionId
             Frequency := p.Frequency
             Timestamp := p.TimestampUtc
             ExpectedMean := (d.Process sqrt p).1.stats.Mean
             ExpectedSTD := (d.Process sqrt p).1.stats.STD sqrt
             K := d.checker.K }]
        else [] := by
  obtain ⟨tl, htl, ht⟩ := Process_trace sqrt d p
  rw [ht]
  have hlog : savedOf (if (d.Process sqrt p).1.stats.Count % 10 = 0 then
      [Event.logProcessed (d.Process sqrt p).1.stats.Count
        (d.Process sqrt p).1.stats.Mean ((d.Process sqrt p).1.stats.STD sqrt)]
      else []) = [] := by
    split_ifs <;> rfl
  rw [savedOf_append, savedOf_append, hlog, List.append_nil]
  have hhead : savedOf (Event.logReceived p.SessionId p.Frequency :: tl) = [] := htl
  rw [hhead, List.nil_append]
  split_ifs with hA
  · rw [savedOf_saveAnomaly, Process_checker]
  · rfl

theorem traceAll_snoc (sqrt : F → F) (d : Detector F) (ps : List (Transmission F))
    (p : Transmission F) :
    traceAll sqrt d (ps ++ [p])
      = traceAll sqrt d ps ++ ((processAll sqrt d ps).Process sqrt p).2 := by
  induction ps generalizing d with
  | nil => simp [traceAll, processAll]
  | cons q ps ih =>
    have hp : processAll sqrt d (q :: ps) = processAll sqrt (d.Process sqrt q).1 ps := rfl
    have hc : traceAll sqrt d (q :: ps ++ [p])
        = (d.Process sqrt q).2 ++ traceAll sqrt (d.Process sqrt q).1 (ps ++ [p]) := rfl
    have hc2 : traceAll sqrt d (q :: ps)
        = (d.Process sqrt q).2 ++ traceAll sqrt (d.Process sqrt q).1 ps := rfl
    rw [hc, hc2, ih, hp, List.append_assoc]

/-- Replaying `j` copies of one sample `x`. -/
theorem replay_replicate (x : F) (j : Nat) :
    replay (List.replicate (j + 1) x) = { count := j + 1, mean := x, m2 := 0 } := by
  induction j with
  | zero => simp [replay, RunningStats.Update, NewRunningStats]
  | succ j ih =>
    rw [List.replicate_succ', replay_snoc, ih]
    simp [RunningStats.Update]

/-- A run of equal samples that opens a new session: the mean is the sample
and, when `sqrt 0 = 0`, the standard deviation is `0`. -/
theorem constant_run_state (sqrt : F → F) (hsqrt0 : sqrt 0 = 0) (d : Detector F)
    (sid : String) (x : F) (hnew : d.currentUUID ≠ sid) (hn : 1 ≤ d.trainSize)
    (qs : List (Transmission F)) (hne : qs ≠ [])
    (hall : ∀ p ∈ qs, p.SessionId = sid ∧ p.Frequency = x) :
    (processAll sqrt d qs).stats.Mean = x ∧ (processAll sqrt d qs).stats.STD sqrt = 0 := by
  rw [session_run sqrt d sid hnew hn qs hne (fun p hp => (hall p hp).1)]
  have hlen : 0 < qs.length := List.length_pos.mpr hne
  obtain ⟨j, hj⟩ : ∃ j, min d.trainSize qs.length = j + 1 :=
    ⟨min d.trainSize qs.length - 1, by omega⟩
  have hrep : List.map (fun p => p.Frequency) (List.take d.trainSize qs)
      = List.replicate (j + 1) x := by
    rw [List.eq_replicate_iff]
    refine ⟨by rw [List.length_map, List.length_take, hj], ?_⟩
    intro b hb
    obtain ⟨p, hp, rfl⟩ := List.mem_map.mp hb
    exact (hall p (List.mem_of_mem_take hp)).2
  simp only [hrep, replay_replicate, RunningStats.Mean, RunningStats.STD]
  refine ⟨trivial, ?_⟩
  split_ifs
  · rfl
  · rw [zero_div, hsqrt0]

/-- During a run of equal samples that opens a new session nothing is handed
to the sink. -/
theorem constant_run_saved (sqrt : F → F) (hsqrt0 : sqrt 0 = 0) (d : Detector F)
    (sid : String) (x : F) (hnew : d.currentUUID ≠ sid) (hn : 1 ≤ d.trainSize)
    (qs : List (Transmission F)) :
    (∀ p ∈ qs, p.SessionId = sid ∧ p.Frequency = x) →
      savedOf (traceAll sqrt d qs) = [] := by
  induction qs using List.reverseRecOn with
  | nil => intro _; rfl
  | append_singleton qs q ih =>
    intro hall
    have hq := hall q (by simp)
    rw [traceAll_snoc, savedOf_append, ih (fun p hp => hall p (by simp [hp])),
      List.nil_append, Process_saved, ← processAll_snoc]
    have hst := constant_run_state sqrt hsqrt0 d sid x hnew hn (qs ++ [q]) (by simp) hall
    have hno : (processAll sqrt d (qs ++ [q])).checker.IsAnomaly sqrt q.Frequency
        (processAll sqrt d (qs ++ [q])).stats = false := by
      simp [AnomalyChecker.IsAnomaly, hst.1, hst.2, hq.2]
    rw [hno]
    rfl

/-- C6. `Process` hands to the sink exactly one `Anomaly` when `IsAnomaly`
holds for the record's frequency against the estimator as it stands after the
record's session reset and training update, and nothing otherwise; that
`Anomaly` carries the record's session id, frequency and timestamp, the
estimator's `Mean()` and `STD()` at that moment, and the configured `K`. In the
scenario of session `"A"` with frequencies `1, 1, 1, 1, 100`, `trainSize = 4`
and `K = 1.5` (and `sqrt 0 = 0`): after record 4 the mean is `1` and the
standard deviation `0`, record 5 is handed to the sink once, and it is the only
record of the run handed to the sink. -/
theorem process_flags (sqrt : F → F) (hsqrt0 : sqrt 0 = 0) (d : Detector F)
    (p : Transmission F) :
    (savedOf (d.Process sqrt p).2
        = if (d.Process sqrt p).1.checker.IsAnomaly sqrt p.Frequency
              (d.Process sqrt p).1.stats = true then
            [{ SessionID := p.SessionId
               Frequency := p.Frequency
               Timestamp := p.TimestampUtc
               ExpectedMean := (d.Process sqrt p).1.stats.Mean
               ExpectedSTD := (d.Process sqrt p).1.stats.STD sqrt
               K := d.checker.K }]
          else [])
      ∧ (∀ (repo : AnomalyRepository F) (logInterval : Nat) (t1 t2 t3 t4 t5 : Int),
          (processAll sqrt (NewDetector repo 1.5 4 logInterval)
              [⟨"A", 1, t1⟩, ⟨"A", 1, t2⟩, ⟨"A", 1, t3⟩, ⟨"A", 1, t4⟩]).stats.Mean = 1
            ∧ (processAll sqrt (NewDetector repo 1.5 4 logInterval)
              [⟨"A", 1, t1⟩, ⟨"A", 1, t2⟩, ⟨"A", 1, t3⟩, ⟨"A", 1, t4⟩]).stats.STD sqrt = 0
            ∧ savedOf ((processAll sqrt (NewDetector repo 1.5 4 logInterval)
                [⟨"A", 1, t1⟩, ⟨"A", 1, t2⟩, ⟨"A", 1, t3⟩, ⟨"A", 1, t4⟩]).Process sqrt
                  ⟨"A", 100, t5⟩).2
              = [⟨"A", 100, t5, 1, 0, 1.5⟩]
            ∧ savedOf (traceAll sqrt (NewDetector repo 1.5 4 logInterval)
                [⟨"A", 1, t1⟩, ⟨"A", 1, t2⟩, ⟨"A", 1, t3⟩, ⟨"A", 1, t4⟩, ⟨"A", 100, t5⟩])
              = [⟨"A", 100, t5, 1, 0, 1.5⟩]) := by
  refine ⟨Process_saved sqrt d p, ?_⟩
  intro repo logInterval t1 t2 t3 t4 t5
  have hnew : (NewDetector repo (1.5 : F) 4 logInterval).currentUUID ≠ "A" := by
    simp [NewDetector]
  have hn : 1 ≤ (NewDetector repo (1.5 : F) 4 logInterval).trainSize := by
    simp [NewDetector]
  have hall : ∀ q ∈ ([⟨"A", 1, t1⟩, ⟨"A", 1, t2⟩, ⟨"A", 1, t3⟩, ⟨"A", 1, t4⟩] :
      List (Transmission F)), q.SessionId = "A" ∧ q.Frequency = 1 := by
    intro q hq
    simp only [List.mem_cons, List.mem_singleton, List.not_mem_nil, or_false] at hq
    rcases hq with h | h | h | h <;> rw [h] <;> exact ⟨rfl, rfl⟩
  have hst := constant_run_state sqrt hsqrt0 _ "A" 1 hnew hn _ (by simp) hall
  have hrun := session_run sqrt _ "A" hnew hn
    [⟨"A", 1, t1⟩, ⟨"A", 1, t2⟩, ⟨"A", 1, t3⟩, ⟨"A", 1, t4⟩] (by simp)
    (fun q hq => (hall q hq).1)
  have hmon : ((processAll sqrt (NewDetector repo (1.5 : F) 4 logInterval)
      [⟨"A", 1, t1⟩, ⟨"A", 1, t2⟩, ⟨"A", 1, t3⟩, ⟨"A", 1, t4⟩]).Process sqrt
        ⟨"A", 100, t5⟩).1
      = processAll sqrt (NewDetector repo (1.5 : F) 4 logInterval)
        [⟨"A", 1, t1⟩, ⟨"A", 1, t2⟩, ⟨"A", 1, t3⟩, ⟨"A", 1, t4⟩] := by
    apply Process_monitoring
    · rw [hrun]
    · rw [hrun]
      simp [NewDetector]
  have hK : (processAll sqrt (NewDetector repo (1.5 : F) 4 logInterval)
      [⟨"A", 1, t1⟩, ⟨"A", 1, t2⟩, ⟨"A", 1, t3⟩, ⟨"A", 1, t4⟩]).checker.K = 1.5 := by
    rw [hrun]
    rfl
  have h5 : savedOf ((processAll sqrt (NewDetector repo (1.5 : F) 4 logInterval)
      [⟨"A", 1, t1⟩, ⟨"A", 1, t2⟩, ⟨"A", 1, t3⟩, ⟨"A", 1, t4⟩]).Process sqrt
        ⟨"A", 100, t5⟩).2 = [⟨"A", 100, t5, 1, 0, 1.5⟩] := by
    rw [Process_saved, hmon]
    have hyes : (processAll sqrt (NewDetector repo (1.5 : F) 4 logInterval)
        [⟨"A", 1, t1⟩, ⟨"A", 1, t2⟩, ⟨"A", 1, t3⟩, ⟨"A", 1, t4⟩]).checker.IsAnomaly sqrt
          (100 : F) (processAll sqrt (NewDetector repo (1.5 : F) 4 logInterval)
        [⟨"A", 1, t1⟩, ⟨"A", 1, t2⟩, ⟨"A", 1, t3⟩, ⟨"A", 1, t4⟩]).stats = true := by
      simp only [AnomalyChecker.IsAnomaly, hst.1, hst.2, mul_zero, decide_eq_true_iff]
      norm_num
    rw [if_pos hyes, hst.1, hst.2, hK]
  refine ⟨hst.1, hst.2, h5, ?_⟩
  have hsplit : ([⟨"A", 1, t1⟩, ⟨"A", 1, t2⟩, ⟨"A", 1, t3⟩, ⟨"A", 1, t4⟩, ⟨"A", 100, t5⟩] :
      List (Transmission F))
      = [⟨"A", 1, t1⟩, ⟨"A", 1, t2⟩, ⟨"A", 1, t3⟩, ⟨"A", 1, t4⟩] ++ [⟨"A", 100, t5⟩] := rfl
  rw [hsplit, traceAll_snoc, savedOf_append,
    constant_run_saved sqrt hsqrt0 _ "A" 1 hnew hn _ hall, List.nil_append, h5]

/-- Witness of C6 over the reals with the real square root: the scenario's
fifth record is the one record of the run handed to the sink. -/
theorem process_flags_witness :
    Real.sqrt 0 = 0
      ∧ savedOf (traceAll Real.sqrt (NewDetector ⟨fun _ => none⟩ (1.5 : ℝ) 4 10)
          [⟨"A", 1, 0⟩, ⟨"A", 1, 1⟩, ⟨"A", 1, 2⟩, ⟨"A", 1, 3⟩, ⟨"A", 100, 4⟩])
        = [⟨"A", 100, 4, 1, 0, 1.5⟩] :=
  ⟨Real.sqrt_zero,
    ((process_flags Real.sqrt Real.sqrt_zero (NewDetector ⟨fun _ => none⟩ (1.5 : ℝ) 4 10)
      ⟨"A", 1, 0⟩).2 ⟨fun _ => none⟩ 10 0 1 2 3 4).2.2.2⟩

/-- Replacing the repository does not change what `Process` does to the rest
of the detector. -/
theorem Process_repo (sqrt : F → F) (d : Detector F) (r : AnomalyRepository F)
    (p : Transmission F) :
    (({ d with repo := r } : Detector F).Process sqrt p).1
      = { (d.Process sqrt p).1 with repo := r } := by
  by_cases h : d.currentUUID = p.SessionId
  · rcases Bool.eq_false_or_eq_true d.trainingMode with ht | ht
    · rw [Process_training sqrt d p h ht,
        Process_training sqrt ({ d with repo := r } : Detector F) p h ht]
    · rw [Process_monitoring sqrt d p h ht,
        Process_monitoring sqrt ({ d with repo := r } : Detector F) p h ht]
  · rw [Process_switch sqrt d p h,
      Process_switch sqrt ({ d with repo := r } : Detector F) p h]

/-- Replacing the repository does not change what `Process` hands to it. -/
theorem Process_repo_saved (sqrt : F → F) (d : Detector F) (r : AnomalyRepository F)
    (p : Transmission F) :
    savedOf (({ d with repo := r } : Detector F).Process sqrt p).2
      = savedOf (d.Process sqrt p).2 := by
  rw [Process_saved, Process_saved, Process_repo]

/-- C8. Sink failures are not fatal. Run `Process` on one record with two
repositories, whatever their `Save` returns (success or an error). The
resulting session id, training mode and estimator are the same, `Save` is
called with the same records and at most once, and the following record is
processed to the same state with the same records handed to the sink. -/
theorem sink_failure_not_fatal (sqrt : F → F) (d : Detector F)
    (r1 r2 : AnomalyRepository F) (p q : Transmission F) :
    (({ d with repo := r1 } : Detector F).Process sqrt p).1.currentUUID
        = (({ d with repo := r2 } : Detector F).Process sqrt p).1.currentUUID
      ∧ (({ d with repo := r1 } : Detector F).Process sqrt p).1.trainingMode
        = (({ d with repo := r2 } : Detector F).Process sqrt p).1.trainingMode
      ∧ (({ d with repo := r1 } : Detector F).Process sqrt p).1.stats
        = (({ d with repo := r2 } : Detector F).Process sqrt p).1.stats
      ∧ savedOf (({ d with repo := r1 } : Detector F).Process sqrt p).2
        = savedOf (({ d with repo := r2 } : Detector F).Process sqrt p).2
      ∧ (savedOf (({ d with repo := r1 } : Detector F).Process sqrt p).2).length ≤ 1
      ∧ ((({ d with repo := r1 } : Detector F).Process sqrt p).1.Process sqrt q).1.currentUUID
        = ((({ d with repo := r2 } : Detector F).Process sqrt p).1.Process sqrt q).1.currentUUID
      ∧ ((({ d with repo := r1 } : Detector F).Process sqrt p).1.Process sqrt q).1.trainingMode
        = ((({ d with repo := r2 } : Detector F).Process sqrt p).1.Process sqrt q).1.trainingMode
      ∧ ((({ d with repo := r1 } : Detector F).Process sqrt p).1.Process sqrt q).1.stats
        = ((({ d with repo := r2 } : Detector F).Process sqrt p).1.Process sqrt q).1.stats
      ∧ savedOf ((({ d with repo := r1 } : Detector F).Process sqrt p).1.Process sqrt q).2
        = savedOf ((({ d with repo := r2 } : Detector F).Process sqrt p).1.Process sqrt q).2 := by
  have st : ∀ r : AnomalyRepository F,
      (({ d with repo := r } : Detector F).Process sqrt p).1
        = { (d.Process sqrt p).1 with repo := r } :=
    fun r => Process_repo sqrt d r p
  have st2 : ∀ r : AnomalyRepository F,
      ((({ d with repo := r } : Detector F).Process sqrt p).1.Process sqrt q).1
        = { ((d.Process sqrt p).1.Process sqrt q).1 with repo := r } := by
    intro r
    rw [st r]
    exact Process_repo sqrt _ r q
  have sv : ∀ r : AnomalyRepository F,
      savedOf (({ d with repo := r } : Detector F).Process sqrt p).2
        = savedOf (d.Process sqrt p).2 :=
    fun r => Process_repo_saved sqrt d r p
  have sv2 : ∀ r : AnomalyRepository F,
      savedOf ((({ d with repo := r } : Detector F).Process sqrt p).1.Process sqrt q).2
        = savedOf ((d.Process sqrt p).1.Process sqrt q).2 := by
    intro r
    rw [st r]
    exact Process_repo_saved sqrt _ r q
  have hlen : (savedOf (({ d with repo := r1 } : Detector F).Process sqrt p).2).length ≤ 1 := by
    rw [Process_saved]
    split_ifs <;> simp
  exact ⟨(congrArg Detector.currentUUID (st r1)).trans
      (congrArg Detector.currentUUID (st r2)).symm,
    (congrArg Detector.trainingMode (st r1)).trans
      (congrArg Detector.trainingMode (st r2)).symm,
    (congrArg Detector.stats (st r1)).trans (congrArg Detector.stats (st r2)).symm,
    (sv r1).trans (sv r2).symm, hlen,
    (congrArg Detector.currentUUID (st2 r1)).trans
      (congrArg Detector.currentUUID (st2 r2)).symm,
    (congrArg Detector.trainingMode (st2 r1)).trans
      (congrArg Detector.trainingMode (st2 r2)).symm,
    (congrArg Detector.stats (st2 r1)).trans (congrArg Detector.stats (st2 r2)).symm,
    (sv2 r1).trans (sv2 r2).symm⟩

/-- C11. The first record of a new session is never flagged. Whatever the
detector state, the multiplier `K` and `trainSize`, when `Process` handles a
record whose session id differs from the stored one, the estimator is reset
and updated with the record's frequency before the rule is evaluated: its
mean is that frequency, its `STD()` is `0`, `IsAnomaly` is false, and nothing
is handed to the sink. -/
theorem new_session_not_flagged (sqrt : F → F) (d : Detector F) (p : Transmission F)
    (h : d.currentUUID ≠ p.SessionId) :
    (d.Process sqrt p).1.stats.Mean = p.Frequency
      ∧ (d.Process sqrt p).1.stats.STD sqrt = 0
      ∧ (d.Process sqrt p).1.checker.IsAnomaly sqrt p.Frequency
          (d.Process sqrt p).1.stats = false
      ∧ savedOf (d.Process sqrt p).2 = [] := by
  have hm : (d.Process sqrt p).1.stats.Mean = p.Frequency := by
    rw [Process_switch sqrt d p h]
    simp [RunningStats.Mean, RunningStats.Update, NewRunningStats]
  have hs : (d.Process sqrt p).1.stats.STD sqrt = 0 := by
    rw [Process_switch sqrt d p h]
    simp [RunningStats.STD, RunningStats.Update, NewRunningStats]
  have hno : (d.Process sqrt p).1.checker.IsAnomaly sqrt p.Frequency
      (d.Process sqrt p).1.stats = false := by
    simp [AnomalyChecker.IsAnomaly, hm, hs]
  refine ⟨hm, hs, hno, ?_⟩
  rw [Process_saved, hno]
  rfl

/-- Witness of C11: the record `("A", 7)` on a new detector is not handed to
the sink. -/
theorem new_session_not_flagged_witness :
    (NewDetector ⟨fun _ => none⟩ (1.5 : ℝ) 100 10).currentUUID ≠ "A"
      ∧ savedOf ((NewDetector ⟨fun _ => none⟩ (1.5 : ℝ) 100 10).Process Real.sqrt
          ⟨"A", 7, 0⟩).2 = [] :=
  ⟨by simp [NewDetector],
    (new_session_not_flagged Real.sqrt (NewDetector ⟨fun _ => none⟩ (1.5 : ℝ) 100 10)
      ⟨"A", 7, 0⟩ (by simp [NewDetector])).2.2.2⟩

/-- C9. The code at the failing input: on a detector freshly built by
`NewDetector`, a first record whose session id is the empty string equals the
zero value of `currentUUID`, so `Process` does not reset: the detector is not
in training, the sample is not incorporated (`Count()` stays `0`), and the
record is flagged against the empty estimator (mean `0`, standard deviation
`0`) and handed to the sink. The same record arriving after a record of
another session does go through the reset and leaves `Count() = 1`. -/
theorem first_record_empty_session :
    ((NewDetector ⟨fun _ => none⟩ (1.5 : ℝ) 100 10).Process Real.sqrt
        ⟨"", 7, 0⟩).1.stats.Count = 0
      ∧ ((NewDetector ⟨fun _ => none⟩ (1.5 : ℝ) 100 10).Process Real.sqrt
        ⟨"", 7, 0⟩).1.trainingMode = false
      ∧ savedOf ((NewDetector ⟨fun _ => none⟩ (1.5 : ℝ) 100 10).Process Real.sqrt
        ⟨"", 7, 0⟩).2 = [⟨"", 7, 0, 0, 0, 1.5⟩]
      ∧ (processAll Real.sqrt (NewDetector ⟨fun _ => none⟩ (1.5 : ℝ) 100 10)
        [⟨"B", 3, 0⟩, ⟨"", 7, 1⟩]).stats.Count = 1 := by
  have hst : ((NewDetector ⟨fun _ => none⟩ (1.5 : ℝ) 100 10).Process Real.sqrt
      ⟨"", 7, 0⟩).1 = NewDetector ⟨fun _ => none⟩ (1.5 : ℝ) 100 10 :=
    Process_monitoring Real.sqrt _ _ rfl rfl
  have hflag : (NewDetector ⟨fun _ => none⟩ (1.5 : ℝ) 100 10).checker.IsAnomaly Real.sqrt
      (7 : ℝ) (NewDetector ⟨fun _ => none⟩ (1.5 : ℝ) 100 10).stats = true := by
    simp [AnomalyChecker.IsAnomaly, NewDetector, NewAnomalyChecker, NewRunningStats,
      RunningStats.Mean, RunningStats.STD]
  refine ⟨by rw [hst]; rfl, by rw [hst]; rfl, ?_, ?_⟩
  · rw [Process_saved, hst, if_pos hflag]
    simp [NewDetector, NewAnomalyChecker, NewRunningStats, RunningStats.Mean,
      RunningStats.STD]
  · have hsplit : ([⟨"B", 3, 0⟩, ⟨"", 7, 1⟩] : List (Transmission ℝ))
        = [⟨"B", 3, 0⟩] ++ [⟨"", 7, 1⟩] := rfl
    have hid : (processAll Real.sqrt (NewDetector ⟨fun _ => none⟩ (1.5 : ℝ) 100 10)
        [⟨"B", 3, 0⟩]).currentUUID ≠ "" := by
      have h1 : ([⟨"B", 3, 0⟩] : List (Transmission ℝ)) = [] ++ [⟨"B", 3, 0⟩] := rfl
      rw [h1, processAll_snoc, Process_currentUUID]
      decide
    rw [hsplit, processAll_snoc, Process_switch Real.sqrt _ _ hid]
    rfl

end DetectorLemmas

/-! ## Shutdown -/

/-- C7, as amended. After a first `Shutdown` call that returned `nil`, the
channel is closed, and a second call, whatever its context, does not panic (the
channel is not closed twice) and leaves the detector, closed channel included,
as it was. The second call returns `nil` whenever its context is not yet done;
when that context is done as well, the `select` has two ready cases and the
call returns either `nil` or the context's error, `nil` if the channel's case
is picked. -/
theorem shutdown_twice {F : Type} (d d1 : Detector F) (ctx1 ctx2 : Context) (c1 c2 : Bool)
    (h1 : d.Shutdown ctx1 c1 = some (d1, none)) :
    d1.shutdownCh = true
      ∧ ∃ r2 : Option CtxErr,
          d1.Shutdown ctx2 c2 = some (d1, r2)
            ∧ (ctx2 = none → r2 = none)
            ∧ (c2 = false → r2 = none)
            ∧ (r2 = none ∨ r2 = ctx2) := by
  have hclosed : d1.shutdownCh = true := by
    unfold Detector.Shutdown at h1
    cases hch : d.shutdownCh <;> cases ctx1 <;> cases c1 <;>
      simp [hch, closeChan] at h1 <;> subst h1 <;> first | exact hch | rfl
  refine ⟨hclosed, ?_⟩
  unfold Detector.Shutdown
  rw [hclosed]
  cases ctx2 with
  | none => exact ⟨none, rfl, fun _ => rfl, fun _ => rfl, Or.inl rfl⟩
  | some e =>
    cases c2 with
    | false => exact ⟨none, rfl, fun _ => rfl, fun _ => rfl, Or.inl rfl⟩
    | true =>
      exact ⟨some e, rfl, fun h => absurd h (by simp), fun h => absurd h (by simp),
        Or.inr rfl⟩

/-- Witness of C7: a new detector is shut down with a live context, then
again with a live context. -/
theorem shutdown_twice_witness :
    (NewDetector ⟨fun _ => none⟩ (1.5 : ℝ) 100 10).Shutdown none false
        = some ({ NewDetector ⟨fun _ => none⟩ (1.5 : ℝ) 100 10 with shutdownCh := true }, none)
      ∧ ({ NewDetector ⟨fun _ => none⟩ (1.5 : ℝ) 100 10 with
            shutdownCh := true } : Detector ℝ).shutdownCh = true :=
  ⟨rfl, (shutdown_twice (NewDetector ⟨fun _ => none⟩ (1.5 : ℝ) 100 10)
    { NewDetector ⟨fun _ => none⟩ (1.5 : ℝ) 100 10 with shutdownCh := true }
    none none false false rfl).1⟩

/-- C7 fails as stated: after a first call that closed the channel, a second
call whose context is already cancelled can return the context's error, when
the `select` picks the `ctx.Done()` case. -/
theorem shutdown_counterexample :
    (NewDetector ⟨fun _ => none⟩ (1.5 : ℝ) 100 10).Shutdown none false
        = some ({ NewDetector ⟨fun _ => none⟩ (1.5 : ℝ) 100 10 with shutdownCh := true }, none)
      ∧ ({ NewDetector ⟨fun _ => none⟩ (1.5 : ℝ) 100 10 with
            shutdownCh := true } : Detector ℝ).Shutdown (some CtxErr.Canceled) true
        = some ({ NewDetector ⟨fun _ => none⟩ (1.5 : ℝ) 100 10 with shutdownCh := true },
            some CtxErr.Canceled) :=
  ⟨rfl, rfl⟩

/-! ## The ingestion loop -/

section IngestionLemmas

variable {F : Type} [LinearOrderedField F]

/-- C10. The ingestion loop processes the records in arrival order, one at a
time, and stops at the first stream error, at the end of the stream, or when
cancellation is observed at the top of an iteration. The stream splits into
the records `received` before that point and the rest: no cancellation is
observed before any of the `received` records; the loop stops because
cancellation is observed right after them, or the stream has ended, or the
next result is an error; the detector when the loop exits is the left fold of
`Process` over `received`; and the trace of the loop is the trace of those
`Process` calls followed by at most the one log line of the stream error, so
that no later record is processed or handed to the sink. -/
theorem ingestion_in_order (sqrt : F → F) (ctxDone : Nat → Bool) (i : Nat)
    (d : Detector F) (stream : List (Recv F)) :
    ∃ (received : List (Transmission F)) (rest : List (Recv F)),
      stream = received.map Recv.data ++ rest
        ∧ (∀ j, j < received.length → ctxDone (i + j) = false)
        ∧ (ctxDone (i + received.length) = true ∨ rest = []
            ∨ ∃ e tl, rest = Recv.error e :: tl)
        ∧ (startDataProcessing sqrt ctxDone i d stream).1
            = received.foldl (fun acc p => (acc.Process sqrt p).1) d
        ∧ ∃ stop : List (Event F),
            (startDataProcessing sqrt ctxDone i d stream).2
                = traceAll sqrt d received ++ stop
              ∧ (stop = [] ∨ ∃ e, stop = [Event.logStreamError e]) := by
  induction stream generalizing i d with
  | nil =>
    refine ⟨[], [], rfl, fun j hj => absurd hj (Nat.not_lt_zero j), Or.inr (Or.inl rfl), ?_⟩
    unfold startDataProcessing
    cases ctxDone i
    · exact ⟨rfl, [Event.logStreamError "EOF"], rfl, Or.inr ⟨"EOF", rfl⟩⟩
    · exact ⟨rfl, [], rfl, Or.inl rfl⟩
  | cons r stream ih =>
    cases r with
    | error e =>
      refine ⟨[], Recv.error e :: stream, rfl, fun j hj => absurd hj (Nat.not_lt_zero j),
        Or.inr (Or.inr ⟨e, stream, rfl⟩), ?_⟩
      unfold startDataProcessing
      cases ctxDone i
      · exact ⟨rfl, [Event.logStreamError e], rfl, Or.inr ⟨e, rfl⟩⟩
      · exact ⟨rfl, [], rfl, Or.inl rfl⟩
    | data p =>
      cases hc : ctxDone i with
      | true =>
        refine ⟨[], Recv.data p :: stream, rfl, fun j hj => absurd hj (Nat.not_lt_zero j),
          Or.inl hc, ?_⟩
        unfold startDataProcessing
        rw [hc]
        exact ⟨rfl, [], rfl, Or.inl rfl⟩
      | false =>
        obtain ⟨received, rest, hs, hlive, hstop, hstate, stop, htrace, hstopev⟩ :=
          ih (i + 1) (d.Process sqrt p).1
        refine ⟨p :: received, rest, ?_, ?_, ?_, ?_⟩
        · rw [hs]
          rfl
        · intro j hj
          cases j with
          | zero => exact hc
          | succ j =>
            have := hlive j (by simpa using hj)
            rw [← this]
            congr 1
            omega
        · rcases hstop with h | h | h
          · refine Or.inl ?_
            rw [← h]
            congr 1
            simp only [List.length_cons]
            omega
          · exact Or.inr (Or.inl h)
          · exact Or.inr (Or.inr h)
        · unfold startDataProcessing
          rw [hc]
          refine ⟨hstate, stop, ?_, hstopev⟩
          show (d.Process sqrt p).2
              ++ (startDataProcessing sqrt ctxDone (i + 1) (d.Process sqrt p).1 stream).2
            = traceAll sqrt d (p :: received) ++ stop
          rw [htrace]
          exact (List.append_assoc _ _ _).symm

end IngestionLemmas

end AlienWave
